import Mathlib

/-!
Shallow embedding of the HydrationReminder application (src/app.py).

The application is a single class `WaterReminderApp` whose relevant state is
`daily_total`, `interval_minutes`, `cup_name`, `timer_id` plus two persisted
resources: a `settings.ini` key/value file handled through `configparser`,
and a `water_log.xlsx` tabular file handled through `pandas`.

We embed the persisted resources as explicit values:
 * the ini file is `Option IniContent`: `none` = file absent,
   `IniContent.malformed` = content `configparser` cannot parse (its `read`
   raises `ParsingError`), `IniContent.parsed sections` = the parsed
   section/key/value structure;
 * the excel log is `Option (List RawRow)`: `none` = file absent, a row's
   `date`/`cups` field is `none` when `pd.to_datetime` (resp. `int()`)
   cannot convert that cell.

Python exceptions are surfaced as `PyErr`; an operation that, in the code,
mutates `self` before a possible raise is modelled as returning the mutated
state together with `Option PyErr` (tkinter catches callback exceptions, so
the process keeps running with the partially-updated state).
-/

namespace HydrationReminder

/-- Python exceptions that the embedded operations can raise. -/
inductive PyErr where
  | keyError
  | valueError
  | parsingError
  | pandasError
deriving DecidableEq, Repr

/-! ### Model of Python `int()` on strings and `str()` on ints -/

/-- Whitespace accepted (and stripped) by Python `int()`. -/
def isPySpace (c : Char) : Bool :=
  c = ' ' || c = '\t' || c = '\n' || c = '\r'

/-- Decimal value of an ASCII digit character, `none` otherwise. -/
def digitVal (c : Char) : Option Nat :=
  if '0' ≤ c && c ≤ '9' then some (c.toNat - Char.toNat '0') else none

/-- Accumulating decimal reader over a digit list. -/
def digitsToNatAux : Nat → List Char → Option Nat
  | acc, [] => some acc
  | acc, c :: cs =>
      match digitVal c with
      | some d => digitsToNatAux (acc * 10 + d) cs
      | none => none

/-- Reads a non-empty all-digit list as a natural number. -/
def digitsToNat : List Char → Option Nat
  | [] => none
  | l => digitsToNatAux 0 l

/-- Model of Python `int(s)` for a string `s`: strips surrounding
whitespace, accepts an optional sign followed by decimal digits, and
fails (`ValueError`) otherwise, reported here as `none`. -/
def pyInt (s : String) : Option Int :=
  let t := s.data.dropWhile isPySpace
  let t := (t.reverse.dropWhile isPySpace).reverse
  match t with
  | '-' :: rest => (digitsToNat rest).map (fun n => -(n : Int))
  | '+' :: rest => (digitsToNat rest).map (fun n => (n : Int))
  | l => (digitsToNat l).map (fun n => (n : Int))

/-- The ASCII digit character for a value below ten. -/
def digitChar (d : Nat) : Char :=
  Char.ofNat (Char.toNat '0' + d)

/-- Fuel-indexed decimal printer for naturals (most significant first). -/
def natToDigitsAux : Nat → Nat → List Char
  | 0, _ => []
  | fuel + 1, n =>
      if n < 10 then [digitChar n]
      else natToDigitsAux fuel (n / 10) ++ [digitChar (n % 10)]

/-- Model of Python `str(i)` for an integer `i`: plain decimal with a
leading minus sign on negatives. -/
def intToStr (i : Int) : String :=
  match i with
  | .ofNat n => ⟨natToDigitsAux (n + 1) n⟩
  | .negSucc m => ⟨'-' :: natToDigitsAux (m + 2) (m + 1)⟩

/-! ### Model of the `configparser` ini resource -/

/-- One ini section: its name and its ordered key/value pairs. -/
abbrev IniSection := String × List (String × String)

/-- Content of the settings file as `configparser` sees it. -/
inductive IniContent where
  | malformed
  | parsed (sections : List IniSection)
deriving DecidableEq, Repr

/-- `config.get(sec, k, fallback=...)` lookup: the value of key `k` in
section `sec`, `none` when the section or key is absent. -/
def getKey (secs : List IniSection) (sec k : String) : Option String :=
  match secs.find? (fun s => s.1 = sec) with
  | none => none
  | some s => (s.2.find? (fun p => p.1 = k)).map (fun p => p.2)

/-- Assignment `section[k] = v` on a section's key/value list: replaces the
value in place when the key exists, appends otherwise (dict semantics). -/
def setKeyInKvs (kvs : List (String × String)) (k v : String) : List (String × String) :=
  if kvs.any (fun p => p.1 = k) then
    kvs.map (fun p => if p.1 = k then (k, v) else p)
  else kvs ++ [(k, v)]

/-- Assignment `config[sec][k] = v` on the parsed sections. -/
def setKey (secs : List IniSection) (sec k v : String) : List IniSection :=
  secs.map (fun s => if s.1 = sec then (s.1, setKeyInKvs s.2 k v) else s)

/-- The default settings the app writes when `settings.ini` is absent. -/
def defaultSettingsSections : List IniSection :=
  [("Settings",
    [("interval_minutes", "30"), ("cup_name", "cup"), ("cup_amount_ml", "250")])]

/-! ### Model of the pandas excel log resource -/

/-- One row of `water_log.xlsx`. `date` is `none` when `pd.to_datetime`
cannot parse the cell (that raises for the whole column), otherwise the
normalized `YYYY-MM-DD` string; `cups` is `none` when `int()` cannot
convert the cell. -/
structure RawRow where
  date : Option String
  cups : Option Int
deriving DecidableEq, Repr

/-- A pending tcl `after` timer: its handle and its scheduled delay. -/
structure SchedTimer where
  handle : Nat
  delayMs : Int
deriving DecidableEq, Repr

/-- The state of a `WaterReminderApp` instance together with the two
persisted resources and the set of pending `after` timers. -/
structure AppState where
  daily_total : Int
  interval_minutes : Int
  cup_name : String
  timer_id : Option Nat
  nextHandle : Nat
  pending : List SchedTimer
  settingsFile : Option IniContent
  logFile : Option (List RawRow)
deriving DecidableEq, Repr

/-! ### The operations of `WaterReminderApp`, translated from src/app.py -/

/-- `load_settings` (app.py lines 65-83): if the file is absent, write the
defaults; then `config.read` (raises `ParsingError` on unparseable
content), `int(config.get("Settings", "interval_minutes", fallback=30))`
(the `int` raises `ValueError` on a non-numeric value; the fallback `30`
is already an int), and `config.get("Settings", "cup_name",
fallback="cup")`. Returns `(interval_minutes, cup_name, file-after)`. -/
def load_settings (file : Option IniContent) :
    Except PyErr (Int × String × Option IniContent) :=
  let file1 : IniContent :=
    match file with
    | none => .parsed defaultSettingsSections
    | some c => c
  match file1 with
  | .malformed => .error .parsingError
  | .parsed secs =>
      match getKey secs "Settings" "interval_minutes" with
      | some s =>
          match pyInt s with
          | some n =>
              .ok (n, (getKey secs "Settings" "cup_name").getD "cup", some file1)
          | none => .error .valueError
      | none =>
          .ok (30, (getKey secs "Settings" "cup_name").getD "cup", some file1)

/-- `save_settings` (app.py lines 85-91): `config.read` (no-op on a
missing file, `ParsingError` on unparseable content), then
`config["Settings"]["interval_minutes"] = str(self.interval_minutes)`
(`config["Settings"]` raises `KeyError` when that section is absent),
then write the file back. -/
def save_settings (interval : Int) (file : Option IniContent) :
    Except PyErr (Option IniContent) :=
  match file with
  | none => .error .keyError
  | some .malformed => .error .parsingError
  | some (.parsed secs) =>
      match secs.find? (fun s => s.1 = "Settings") with
      | some _ =>
          .ok (some (.parsed (setKey secs "Settings" "interval_minutes" (intToStr interval))))
      | none => .error .keyError

/-- The upsert at the heart of `save_log` (app.py lines 122-127): if a row
for `today` exists, set its `Total Cups` on every such row
(`df.loc[df["Date"] == today, ...] = ...`), else append a new row. -/
def upsertRows (today : String) (total : Int) (rows : List RawRow) : List RawRow :=
  if rows.any (fun r => r.date = some today) then
    rows.map (fun r => if r.date = some today then { r with cups := some total } else r)
  else rows ++ [⟨some today, some total⟩]

/-- `save_log` (app.py lines 113-133): read the excel file; on
`FileNotFoundError` start a fresh one-row table; `pd.to_datetime` raises
when any date cell is unparseable (only `FileNotFoundError` is caught
here, so that raise escapes); otherwise upsert today's row and rewrite
the whole file. -/
def save_log (today : String) (total : Int) (file : Option (List RawRow)) :
    Except PyErr (Option (List RawRow)) :=
  match file with
  | none => .ok (some [⟨some today, some total⟩])
  | some rows =>
      if rows.all (fun r => r.date.isSome) then
        .ok (some (upsertRows today total rows))
      else .error .pandasError

/-- `load_or_create_log` (app.py lines 93-111): read the file; a missing
file, an unparseable date anywhere in the `Date` column, or a `Total
Cups` cell `int()` cannot convert all leave `daily_total = 0` (the
generic `except` prints a warning and falls back to 0); otherwise the
first row for `today`, or 0 when there is none. -/
def load_or_create_log (today : String) (file : Option (List RawRow)) : Int :=
  match file with
  | none => 0
  | some rows =>
      if rows.all (fun r => r.date.isSome) then
        match rows.find? (fun r => r.date = some today) with
        | some r =>
            match r.cups with
            | some n => n
            | none => 0
        | none => 0
      else 0

/-- `drank_water` (app.py lines 210-215): increment `daily_total`, then
persist via `save_log`. The increment happens before the save, so a
raise from `save_log` leaves the incremented counter with the old file. -/
def drank_water (today : String) (s : AppState) : AppState × Option PyErr :=
  let t := s.daily_total + 1
  match save_log today t s.logFile with
  | .ok f => ({ s with daily_total := t, logFile := f }, none)
  | .error e => ({ s with daily_total := t }, some e)

/-- `peed` (app.py lines 217-225): when `daily_total > 0`, decrement and
persist; otherwise print "Cannot go below zero." and do nothing. -/
def peed (today : String) (s : AppState) : AppState × Option PyErr :=
  if 0 < s.daily_total then
    let t := s.daily_total - 1
    match save_log today t s.logFile with
    | .ok f => ({ s with daily_total := t, logFile := f }, none)
    | .error e => ({ s with daily_total := t }, some e)
  else (s, none)

/-- `start_reminder_timer` (app.py lines 237-244): `after_cancel` the
current handle when one is recorded, then schedule a one-shot timer for
`interval_minutes * 60 * 1000` ms and record its fresh handle. -/
def start_reminder_timer (s : AppState) : AppState :=
  let p :=
    match s.timer_id with
    | some h => s.pending.filter (fun tm => tm.handle ≠ h)
    | none => s.pending
  { s with
    pending := p ++ [⟨s.nextHandle, s.interval_minutes * 60 * 1000⟩],
    timer_id := some s.nextHandle,
    nextHandle := s.nextHandle + 1 }

/-- `update_interval_label` (app.py lines 227-235): set
`interval_minutes := int(value)`, refresh the label, and `save_settings`.
The timer fields are not touched ("the next cycle will pick up the new
value"). A raise from `save_settings` escapes after the field update. -/
def update_interval_label (v : Int) (s : AppState) : AppState × Option PyErr :=
  let s1 := { s with interval_minutes := v }
  match save_settings v s1.settingsFile with
  | .ok f => ({ s1 with settingsFile := f }, none)
  | .error e => (s1, e)

/-- The timer-cancelling part of `exit_app` (app.py lines 299-305):
`after_cancel` the recorded handle when one exists (tray shutdown and
window destruction are outside the model). -/
def exit_app (s : AppState) : AppState :=
  match s.timer_id with
  | some h => { s with pending := s.pending.filter (fun tm => tm.handle ≠ h) }
  | none => s

/-! ### Derived notions used by the statements -/

/-- A counter call, from either UI surface. -/
inductive Call where
  | inc
  | dec
deriving DecidableEq, Repr

/-- One counter callback: `drank_water` or `peed` (exceptions are caught
by the tkinter event loop, so the returned state is kept either way). -/
def stepCall (today : String) (s : AppState) (c : Call) : AppState :=
  match c with
  | .inc => (drank_water today s).1
  | .dec => (peed today s).1

/-- A whole sequence of counter callbacks. -/
def runCalls (today : String) (calls : List Call) (s : AppState) : AppState :=
  calls.foldl (stepCall today) s

/-- The log file has no cell that pandas/`int()` would reject. -/
def logClean (file : Option (List RawRow)) : Prop :=
  match file with
  | none => True
  | some rows => ∀ r ∈ rows, r.date.isSome ∧ r.cups.isSome

instance : DecidablePred logClean := by
  intro file
  unfold logClean
  match file with
  | none => exact inferInstanceAs (Decidable True)
  | some rows => exact inferInstanceAs (Decidable (∀ r ∈ rows, _ ∧ _))

/-- The scheduler representation invariant: the pending set is empty in
the `Idle` state and is exactly the recorded handle's timer when
`Armed`. -/
def schedOK (s : AppState) : Prop :=
  (s.timer_id = none ∧ s.pending = []) ∨
    (∃ h d, s.timer_id = some h ∧ s.pending = [⟨h, d⟩])

/-- `arm(intervalMinutes)` of the spec: set the interval (the slider
state read by the timer) and start the timer. -/
def armWith (s : AppState) (v : Int) : AppState :=
  start_reminder_timer { s with interval_minutes := v }

/-- A sequence of `arm` calls with the given intervals. -/
def runArms (ivs : List Int) (s : AppState) : AppState :=
  ivs.foldl armWith s

/-- The cup label `load_settings` would report for parsed content. -/
def cupOfSecs (secs : List IniSection) : String :=
  (getKey secs "Settings" "cup_name").getD "cup"

/-- The interval `load_settings` would report for parsed content whose
interval value (if any) is numeric. -/
def intervalOfSecs (secs : List IniSection) : Int :=
  ((getKey secs "Settings" "interval_minutes").bind pyInt).getD 30

/-- The total the log lookup reports for a list of rows: the `Total Cups`
of the first row for `today` (0 when that cell is unconvertible), or 0
when no row matches. -/
def lookupCups (today : String) (rows : List RawRow) : Int :=
  match rows.find? (fun r => r.date = some today) with
  | some r => r.cups.getD 0
  | none => 0

/-- A fresh `WaterReminderApp` before any resource exists: counter 0,
interval 30, no timer armed, no files on disk. -/
def initState : AppState :=
  { daily_total := 0, interval_minutes := 30, cup_name := "cup", timer_id := none,
    nextHandle := 0, pending := [], settingsFile := none, logFile := none }

/-- A concrete three-day log used by witnesses. -/
def rows0 : List RawRow :=
  [⟨some "2024-01-01", some 1⟩, ⟨some "2024-01-02", some 2⟩, ⟨some "2024-01-03", some 3⟩]

/-- A state whose log already records 3 cups for 2024-01-01. -/
def loggedState : AppState :=
  { initState with daily_total := 3, logFile := some [⟨some "2024-01-01", some 3⟩] }

/-- A typical running state: the startup timer armed, the default
settings file on disk. -/
def armedState : AppState :=
  { initState with
    timer_id := some 0, nextHandle := 1, pending := [⟨0, 30 * 60 * 1000⟩],
    settingsFile := some (.parsed defaultSettingsSections) }

/-! ### Helper lemmas -/

theorem drank_water_fst_daily_total (today : String) (s : AppState) :
    (drank_water today s).1.daily_total = s.daily_total + 1 := by
  simp only [drank_water]
  cases save_log today (s.daily_total + 1) s.logFile <;> rfl

theorem peed_fst_daily_total (today : String) (s : AppState) :
    (peed today s).1.daily_total =
      if 0 < s.daily_total then s.daily_total - 1 else s.daily_total := by
  simp only [peed]
  by_cases h : 0 < s.daily_total
  · simp only [h, if_true]
    cases save_log today (s.daily_total - 1) s.logFile <;> rfl
  · simp only [h, if_false]

theorem stepCall_nonneg (today : String) (s : AppState) (c : Call)
    (h : 0 ≤ s.daily_total) : 0 ≤ (stepCall today s c).daily_total := by
  cases c with
  | inc =>
      show 0 ≤ (drank_water today s).1.daily_total
      rw [drank_water_fst_daily_total]
      omega
  | dec =>
      show 0 ≤ (peed today s).1.daily_total
      rw [peed_fst_daily_total]
      split <;> omega

theorem armWith_schedOK (s : AppState) (v : Int) (h : schedOK s) :
    schedOK (armWith s v) ∧ (armWith s v).pending.length = 1 := by
  rcases h with ⟨hid, hp⟩ | ⟨hh, d, hid, hp⟩
  · constructor
    · right
      exact ⟨s.nextHandle, v * 60 * 1000, by simp [armWith, start_reminder_timer, hid, hp]⟩
    · simp [armWith, start_reminder_timer, hid, hp]
  · constructor
    · right
      exact ⟨s.nextHandle, v * 60 * 1000, by simp [armWith, start_reminder_timer, hid, hp]⟩
    · simp [armWith, start_reminder_timer, hid, hp]

theorem exit_app_pending_of_schedOK (s : AppState) (h : schedOK s) :
    (exit_app s).pending = [] := by
  rcases h with ⟨hid, hp⟩ | ⟨hh, d, hid, hp⟩
  · simp [exit_app, hid, hp]
  · simp [exit_app, hid, hp]

theorem runArms_schedOK (ivs : List Int) (s : AppState) (h : schedOK s) :
    schedOK (runArms ivs s) ∧ (ivs ≠ [] → (runArms ivs s).pending.length = 1) := by
  induction ivs generalizing s with
  | nil => exact ⟨h, by intro hc; exact absurd rfl hc⟩
  | cons v ivs ih =>
      have step := armWith_schedOK s v h
      have tail := ih (armWith s v) step.1
      refine ⟨tail.1, fun _ => ?_⟩
      cases ivs with
      | nil => exact step.2
      | cons w ws => exact tail.2 (by simp)

/-- The row rewrite `save_log` applies to a row when a row for `today`
already exists. -/
def replaceRow (today : String) (total : Int) (r : RawRow) : RawRow :=
  if r.date = some today then { r with cups := some total } else r

theorem replaceRow_date (today : String) (total : Int) (r : RawRow) :
    (replaceRow today total r).date = r.date := by
  by_cases hr : r.date = some today <;> simp [replaceRow, hr]

theorem replaceRow_idem (today : String) (total : Int) (r : RawRow) :
    replaceRow today total (replaceRow today total r) = replaceRow today total r := by
  by_cases hr : r.date = some today <;> simp [replaceRow, hr]

theorem upsertRows_of_any (today : String) (total : Int) (rows : List RawRow)
    (h : rows.any (fun r => r.date = some today) = true) :
    upsertRows today total rows = rows.map (replaceRow today total) := by
  simp only [upsertRows, h, if_true]
  rfl

theorem upsertRows_of_not_any (today : String) (total : Int) (rows : List RawRow)
    (h : rows.any (fun r => r.date = some today) = false) :
    upsertRows today total rows = rows ++ [⟨some today, some total⟩] := by
  simp only [upsertRows, h, Bool.false_eq_true, if_false]

theorem any_map_replaceRow (today td : String) (total : Int) (rows : List RawRow) :
    (rows.map (replaceRow today total)).any (fun r => r.date = some td) =
      rows.any (fun r => r.date = some td) := by
  rw [List.any_map]
  have he : ((fun r : RawRow => (r.date = some td : Bool)) ∘ replaceRow today total)
      = fun r : RawRow => (r.date = some td : Bool) :=
    funext fun r => by simp [Function.comp, replaceRow_date]
  rw [he]

theorem upsertRows_idem (today : String) (total : Int) (rows : List RawRow) :
    upsertRows today total (upsertRows today total rows) = upsertRows today total rows := by
  cases hany : rows.any (fun r => r.date = some today) with
  | true =>
      rw [upsertRows_of_any today total rows hany]
      rw [upsertRows_of_any today total _ (by rw [any_map_replaceRow, hany])]
      rw [List.map_map]
      exact List.map_congr_left (fun r _ => replaceRow_idem today total r)
  | false =>
      rw [upsertRows_of_not_any today total rows hany]
      have hany2 : (rows ++ [(⟨some today, some total⟩ : RawRow)]).any
          (fun r => r.date = some today) = true := by
        simp [List.any_append]
      rw [upsertRows_of_any today total _ hany2]
      rw [List.map_append]
      have h1 : rows.map (replaceRow today total) = rows := by
        have := List.any_eq_false.mp hany
        calc rows.map (replaceRow today total)
            = rows.map id := List.map_congr_left (by
                intro r hr
                have hne : ¬r.date = some today := by
                  have := this r hr
                  simpa using this
                simp [replaceRow, hne])
          _ = rows := List.map_id rows
      rw [h1]
      simp [replaceRow]

theorem upsertRows_all_dates (today : String) (total : Int) (rows : List RawRow)
    (h : rows.all (fun r => r.date.isSome) = true) :
    (upsertRows today total rows).all (fun r => r.date.isSome) = true := by
  cases hany : rows.any (fun r => r.date = some today) with
  | true =>
      rw [upsertRows_of_any today total rows hany, List.all_map]
      rw [show ((fun r : RawRow => r.date.isSome) ∘ replaceRow today total)
            = (fun r : RawRow => r.date.isSome) from
          funext (fun r => by simp [Function.comp, replaceRow_date])]
      exact h
  | false =>
      rw [upsertRows_of_not_any today total rows hany, List.all_append]
      simp [h]

theorem setKeyInKvs_find?_self (kvs : List (String × String)) (k v : String) :
    (setKeyInKvs kvs k v).find? (fun p => p.1 = k) = some (k, v) := by
  unfold setKeyInKvs
  cases hany : kvs.any (fun p => p.1 = k) with
  | true =>
      simp only [hany, if_true]
      rw [List.find?_map]
      have hpe : ((fun p : String × String => (p.1 = k : Bool)) ∘
          (fun p => if p.1 = k then (k, v) else p))
          = fun p : String × String => (p.1 = k : Bool) := by
        funext p
        by_cases hp : p.1 = k <;> simp [Function.comp, hp]
      rw [hpe]
      obtain ⟨p0, hp0mem, hp0⟩ := List.any_eq_true.mp hany
      have hsome : (kvs.find? (fun p => p.1 = k)).isSome = true :=
        List.find?_isSome.mpr ⟨p0, hp0mem, hp0⟩
      obtain ⟨p1, hp1⟩ := Option.isSome_iff_exists.mp hsome
      rw [hp1]
      have hp1k : p1.1 = k := by simpa using List.find?_some hp1
      simp [hp1k]
  | false =>
      simp only [hany, Bool.false_eq_true, if_false]
      rw [List.find?_append]
      have hnone : kvs.find? (fun p => p.1 = k) = none := by
        rw [List.find?_eq_none]
        intro p hp
        simpa using List.any_eq_false.mp hany p hp
      rw [hnone]
      simp [List.find?_cons]

theorem setKeyInKvs_find?_other (kvs : List (String × String)) (k v k' : String)
    (hk : k' ≠ k) :
    (setKeyInKvs kvs k v).find? (fun p => p.1 = k') = kvs.find? (fun p => p.1 = k') := by
  unfold setKeyInKvs
  cases hany : kvs.any (fun p => p.1 = k) with
  | true =>
      simp only [hany, if_true]
      rw [List.find?_map]
      have hpe : ((fun p : String × String => (p.1 = k' : Bool)) ∘
          (fun p => if p.1 = k then (k, v) else p))
          = fun p : String × String => (p.1 = k' : Bool) := by
        funext p
        by_cases hp : p.1 = k <;> simp [Function.comp, hp]
      rw [hpe]
      cases hf : kvs.find? (fun p => p.1 = k') with
      | none => rfl
      | some p1 =>
          have hp1 : p1.1 = k' := by simpa using List.find?_some hf
          have hne : ¬p1.1 = k := by rw [hp1]; exact hk
          simp [hne]
  | false =>
      simp only [hany, Bool.false_eq_true, if_false]
      rw [List.find?_append]
      cases hf : kvs.find? (fun p => p.1 = k') with
      | some p1 => rfl
      | none =>
          have : ¬(k = k') := fun hc => hk hc.symm
          simp [List.find?_cons, this]

theorem getKey_setKey_self (secs : List IniSection) (sec k v : String)
    (h : (secs.find? (fun s => s.1 = sec)).isSome = true) :
    getKey (setKey secs sec k v) sec k = some v := by
  obtain ⟨s0, hs0⟩ := Option.isSome_iff_exists.mp h
  have hs0p : s0.1 = sec := by simpa using List.find?_some hs0
  unfold getKey setKey
  rw [List.find?_map]
  have hpe : ((fun s : IniSection => (s.1 = sec : Bool)) ∘
      (fun s : IniSection => if s.1 = sec then (s.1, setKeyInKvs s.2 k v) else s))
      = fun s : IniSection => (s.1 = sec : Bool) := by
    funext s
    by_cases hs : s.1 = sec <;> simp [Function.comp, hs]
  rw [hpe, hs0]
  show ((if s0.1 = sec then (s0.1, setKeyInKvs s0.2 k v) else s0).2.find?
      (fun p => (p.1 = k : Bool))).map (fun p => p.2) = some v
  rw [if_pos hs0p]
  show ((setKeyInKvs s0.2 k v).find? (fun p => (p.1 = k : Bool))).map (fun p => p.2) = some v
  rw [setKeyInKvs_find?_self]
  rfl

theorem getKey_setKey_other (secs : List IniSection) (sec k v sec' k' : String)
    (hk : k' ≠ k) :
    getKey (setKey secs sec k v) sec' k' = getKey secs sec' k' := by
  unfold getKey setKey
  rw [List.find?_map]
  have hpe : ((fun s : IniSection => (s.1 = sec' : Bool)) ∘
      (fun s : IniSection => if s.1 = sec then (s.1, setKeyInKvs s.2 k v) else s))
      = fun s : IniSection => (s.1 = sec' : Bool) := by
    funext s
    by_cases hs : s.1 = sec <;> simp [Function.comp, hs]
  rw [hpe]
  cases hf : secs.find? (fun s => s.1 = sec') with
  | none => rfl
  | some s0 =>
      show ((if s0.1 = sec then (s0.1, setKeyInKvs s0.2 k v) else s0).2.find?
          (fun p => (p.1 = k' : Bool))).map (fun p => p.2) =
        (s0.2.find? (fun p => (p.1 = k' : Bool))).map (fun p => p.2)
      by_cases hs : s0.1 = sec
      · rw [if_pos hs]
        show ((setKeyInKvs s0.2 k v).find? (fun p => (p.1 = k' : Bool))).map (fun p => p.2) =
          (s0.2.find? (fun p => (p.1 = k' : Bool))).map (fun p => p.2)
        rw [setKeyInKvs_find?_other s0.2 k v k' hk]
      · rw [if_neg hs]

theorem pyInt_intToStr_small :
    ∀ n : Nat, n < 121 → pyInt (intToStr (Int.ofNat n)) = some (Int.ofNat n) := by
  decide

theorem pyInt_intToStr_interval (i : Int) (hi1 : 1 ≤ i) (hi2 : i ≤ 120) :
    pyInt (intToStr i) = some i := by
  have h1 : ((i.toNat : Nat) : Int) = i := Int.toNat_of_nonneg (by omega)
  have h2 : i.toNat < 121 := by omega
  have h3 := pyInt_intToStr_small i.toNat h2
  rw [show Int.ofNat i.toNat = i from h1] at h3
  exact h3

theorem save_log_of_clean (today : String) (total : Int) (file : Option (List RawRow))
    (h : logClean file) :
    ∃ rows', save_log today total file = .ok (some rows') ∧
      load_or_create_log today (some rows') = total := by
  cases file with
  | none =>
      refine ⟨[⟨some today, some total⟩], rfl, ?_⟩
      simp [load_or_create_log]
  | some rows =>
      have hall : rows.all (fun r => r.date.isSome) = true := by
        rw [List.all_eq_true]
        intro r hr
        simpa using (h r hr).1
      refine ⟨upsertRows today total rows, by simp [save_log, hall], ?_⟩
      have hall2 := upsertRows_all_dates today total rows hall
      simp only [load_or_create_log, hall2, if_true]
      cases hany : rows.any (fun r => r.date = some today) with
      | true =>
          rw [upsertRows_of_any today total rows hany, List.find?_map]
          have hpe : ((fun r : RawRow => (r.date = some today : Bool)) ∘ replaceRow today total)
              = fun r : RawRow => (r.date = some today : Bool) :=
            funext fun r => by simp [Function.comp, replaceRow_date]
          rw [hpe]
          obtain ⟨r0, hr0mem, hr0⟩ := List.any_eq_true.mp hany
          have hsome : (rows.find? (fun r => r.date = some today)).isSome :=
            List.find?_isSome.mpr ⟨r0, hr0mem, hr0⟩
          obtain ⟨r1, hr1⟩ := Option.isSome_iff_exists.mp hsome
          rw [hr1]
          have hp1 : r1.date = some today := by simpa using List.find?_some hr1
          simp [replaceRow, hp1]
      | false =>
          rw [upsertRows_of_not_any today total rows hany, List.find?_append]
          have hnone : rows.find? (fun r => r.date = some today) = none := by
            rw [List.find?_eq_none]
            intro r hr
            simpa using List.any_eq_false.mp hany r hr
          rw [hnone]
          simp

/-! ### The claims -/

/-- C1: for every sequence of `drank_water`/`peed` calls starting from any
`daily_total ≥ 0`, `daily_total` stays `≥ 0` after every call, and a
`peed` invoked at `daily_total = 0` leaves the whole state unchanged and
raises nothing (a silent no-op, never a failure). -/
theorem C1_counter_floor (today : String) (s : AppState) (calls : List Call)
    (h0 : 0 ≤ s.daily_total) :
    0 ≤ (runCalls today calls s).daily_total ∧
      (s.daily_total = 0 → peed today s = (s, none)) := by
  constructor
  · induction calls generalizing s with
    | nil => exact h0
    | cons c cs ih => exact ih (stepCall today s c) (stepCall_nonneg today s c h0)
  · intro hz
    simp [peed, hz]

/-- Witness for C1 at a concrete state and call sequence. -/
theorem C1_counter_floor_witness :
    0 ≤ (runCalls "2024-01-01" [Call.dec, Call.inc, Call.inc, Call.dec] initState).daily_total ∧
      (initState.daily_total = 0 → peed "2024-01-01" initState = (initState, none)) :=
  C1_counter_floor "2024-01-01" initState [Call.dec, Call.inc, Call.inc, Call.dec] (by decide)

/-- C2: `drank_water` raises nothing and increases `daily_total` by
exactly 1, and immediately after it (or a successful `peed`) returns,
the persisted total the log reports for today equals the in-memory
`daily_total` — the `save_log` write happens inside the call. Stated for
a log resource with no cell pandas would reject, which holds for every
file this process itself wrote. -/
theorem C2_increment_persist (today : String) (s : AppState) (h : logClean s.logFile) :
    (drank_water today s).2 = none ∧
    (drank_water today s).1.daily_total = s.daily_total + 1 ∧
    load_or_create_log today (drank_water today s).1.logFile = s.daily_total + 1 ∧
    (0 < s.daily_total →
      (peed today s).2 = none ∧
      (peed today s).1.daily_total = s.daily_total - 1 ∧
      load_or_create_log today (peed today s).1.logFile = s.daily_total - 1) := by
  obtain ⟨rows1, hs1, hl1⟩ := save_log_of_clean today (s.daily_total + 1) s.logFile h
  refine ⟨?_, ?_, ?_, ?_⟩
  · simp [drank_water, hs1]
  · exact drank_water_fst_daily_total today s
  · simp [drank_water, hs1, hl1]
  · intro hpos
    obtain ⟨rows2, hs2, hl2⟩ := save_log_of_clean today (s.daily_total - 1) s.logFile h
    refine ⟨?_, ?_, ?_⟩
    · simp [peed, hpos, hs2]
    · rw [peed_fst_daily_total]
      simp [hpos]
    · simp [peed, hpos, hs2, hl2]

/-- Witness for C2 at a state whose log already records 3 cups today. -/
theorem C2_increment_persist_witness :
    ((drank_water "2024-01-01" loggedState).2 = none ∧
     (drank_water "2024-01-01" loggedState).1.daily_total = loggedState.daily_total + 1 ∧
     load_or_create_log "2024-01-01" (drank_water "2024-01-01" loggedState).1.logFile =
       loggedState.daily_total + 1) ∧
    ((peed "2024-01-01" loggedState).2 = none ∧
     (peed "2024-01-01" loggedState).1.daily_total = loggedState.daily_total - 1 ∧
     load_or_create_log "2024-01-01" (peed "2024-01-01" loggedState).1.logFile =
       loggedState.daily_total - 1) := by
  have h := C2_increment_persist "2024-01-01" loggedState (by decide)
  exact ⟨⟨h.1, h.2.1, h.2.2.1⟩, h.2.2.2 (by decide)⟩

/-- C3: after any sequence of `arm` calls (each `start_reminder_timer`
cancels the recorded handle before scheduling a new one) exactly one
timer is outstanding — the pending count of a nonempty arm sequence is 1
— and after `exit_app` (the shutdown path) it is 0. -/
theorem C3_at_most_one_timer (s : AppState) (ivs : List Int) (h : schedOK s) :
    (runArms ivs s).pending.length = (if ivs.isEmpty then s.pending.length else 1) ∧
    (exit_app (runArms ivs s)).pending.length = 0 := by
  have hrun := runArms_schedOK ivs s h
  constructor
  · cases ivs with
    | nil => simp [runArms]
    | cons v ws =>
        simp only [List.isEmpty_cons, Bool.false_eq_true, if_false]
        exact hrun.2 (by simp)
  · rw [exit_app_pending_of_schedOK _ hrun.1]
    rfl

/-- Witness for C3: two arms from the fresh state leave one pending
timer, and shutdown leaves zero. -/
theorem C3_at_most_one_timer_witness :
    (runArms [15, 45] initState).pending.length =
      (if ([15, 45] : List Int).isEmpty then initState.pending.length else 1) ∧
    (exit_app (runArms [15, 45] initState)).pending.length = 0 :=
  C3_at_most_one_timer initState [15, 45] (Or.inl ⟨rfl, rfl⟩)

/-- C4: `update_interval_label` persists the new interval into the
settings file and updates `interval_minutes`, but leaves the pending
timer set, the recorded handle and the handle counter untouched (so the
pending fire time is unchanged), and the new interval is used by the
next `start_reminder_timer` call, which schedules `v * 60 * 1000` ms. -/
theorem C4_interval_update_frame (s : AppState) (v : Int) (f : Option IniContent)
    (hf : save_settings v s.settingsFile = .ok f) :
    (update_interval_label v s).1.pending = s.pending ∧
    (update_interval_label v s).1.timer_id = s.timer_id ∧
    (update_interval_label v s).1.nextHandle = s.nextHandle ∧
    (update_interval_label v s).1.interval_minutes = v ∧
    (update_interval_label v s).1.settingsFile = f ∧
    (update_interval_label v s).2 = none ∧
    (start_reminder_timer (update_interval_label v s).1).pending.getLast? =
      some ⟨s.nextHandle, v * 60 * 1000⟩ := by
  simp [update_interval_label, hf, start_reminder_timer, List.getLast?_concat]

/-- Witness for C4 at a concrete armed state with the default settings
file. -/
theorem C4_interval_update_frame_witness :
    (update_interval_label 45 armedState).1.pending = armedState.pending ∧
    (update_interval_label 45 armedState).1.timer_id = armedState.timer_id ∧
    (update_interval_label 45 armedState).1.nextHandle = armedState.nextHandle ∧
    (update_interval_label 45 armedState).1.interval_minutes = 45 ∧
    (update_interval_label 45 armedState).1.settingsFile =
      some (.parsed (setKey defaultSettingsSections "Settings" "interval_minutes" (intToStr 45))) ∧
    (update_interval_label 45 armedState).2 = none ∧
    (start_reminder_timer (update_interval_label 45 armedState).1).pending.getLast? =
      some ⟨armedState.nextHandle, 45 * 60 * 1000⟩ :=
  C4_interval_update_frame armedState 45 _ rfl

/-- C5 counterexample: a persisted settings resource whose
`interval_minutes` value is present but not an integer literal makes
`load_settings` raise `ValueError` out of `int(...)` instead of falling
back to the defaults — the claim that `load()` never fails the caller for
any persisted content is false. -/
theorem C5_counterexample :
    load_settings (some (.parsed [("Settings", [("interval_minutes", "abc")])])) =
      .error .valueError := rfl

/-- C5 amended: `load_settings` never fails when the resource is missing
(it writes the defaults `{30, "cup"}` and reads them back) and, for a
parseable resource whose `interval_minutes` value — when present — is a
valid integer literal, it returns a Settings value, falling back to the
built-in defaults (`30`, `"cup"`) for any missing field; but an
unparseable resource raises `ParsingError`, and a present non-integer
`interval_minutes` raises `ValueError` (see the counterexample). -/
theorem C5_load_settings_amended (secs : List IniSection)
    (h : ∀ v, getKey secs "Settings" "interval_minutes" = some v → (pyInt v).isSome = true) :
    load_settings none = .ok (30, "cup", some (.parsed defaultSettingsSections)) ∧
    load_settings (some (.parsed secs)) =
      .ok (intervalOfSecs secs, cupOfSecs secs, some (.parsed secs)) ∧
    load_settings (some .malformed) = .error .parsingError := by
  refine ⟨rfl, ?_, rfl⟩
  simp only [load_settings]
  cases hk : getKey secs "Settings" "interval_minutes" with
  | none => simp [intervalOfSecs, cupOfSecs, hk]
  | some v =>
      obtain ⟨n, hn⟩ := Option.isSome_iff_exists.mp (h v hk)
      simp [intervalOfSecs, cupOfSecs, hk, hn]

/-- Witness for the amended C5 on a resource with a numeric interval and
no cup key. -/
theorem C5_load_settings_amended_witness :
    load_settings none = .ok (30, "cup", some (.parsed defaultSettingsSections)) ∧
    load_settings (some (.parsed [("Settings", [("interval_minutes", "45")])])) =
      .ok (intervalOfSecs [("Settings", [("interval_minutes", "45")])],
           cupOfSecs [("Settings", [("interval_minutes", "45")])],
           some (.parsed [("Settings", [("interval_minutes", "45")])])) ∧
    load_settings (some .malformed) = .error .parsingError :=
  C5_load_settings_amended [("Settings", [("interval_minutes", "45")])]
    (fun v hv => by
      have hv' : some "45" = some v := hv
      injection hv' with hv2
      rw [← hv2]
      decide)

/-- C6 counterexample: a log whose first row has an unparseable date and
whose second row is a well-formed record of 5 cups for the requested day
loads as 0, not 5 — `pd.to_datetime` raises over the whole column and
the generic handler zeroes the total, so the malformed row is not
skipped and the well-formed rows are not used. -/
theorem C6_counterexample :
    load_or_create_log "2024-01-01"
        (some [⟨none, some 1⟩, ⟨some "2024-01-01", some 5⟩]) = 0 ∧
    (0 : Int) ≠ 5 := ⟨rfl, by decide⟩

/-- C6 amended: `load_or_create_log` returns the persisted total of the
first row for the date when every row is well formed, 0 when no row for
the date or no resource exists, and 0 for the entire load — with a
logged warning, never a crash — as soon as any date cell is
unparseable (malformed rows are not individually skipped). -/
theorem C6_load_total_amended (today : String) (rows : List RawRow) :
    load_or_create_log today none = 0 ∧
    ((∀ r ∈ rows, r.date.isSome = true) →
      load_or_create_log today (some rows) = lookupCups today rows) ∧
    ((∃ r ∈ rows, r.date = none) → load_or_create_log today (some rows) = 0) := by
  refine ⟨rfl, ?_, ?_⟩
  · intro hc
    have hall : rows.all (fun r => r.date.isSome) = true :=
      List.all_eq_true.mpr (fun r hr => hc r hr)
    simp only [load_or_create_log, hall, if_true, lookupCups]
    cases hf : rows.find? (fun r => r.date = some today) with
    | none => rfl
    | some r => cases hcup : r.cups <;> simp [hcup]
  · intro hex
    obtain ⟨r, hr, hd⟩ := hex
    have hall : rows.all (fun r => r.date.isSome) = false := by
      rw [List.all_eq_false]
      exact ⟨r, hr, by simp [hd]⟩
    simp [load_or_create_log, hall]

/-- Witness for the amended C6: a clean log is looked up, a log with a
bad date cell degrades to 0, a missing file reads as 0. -/
theorem C6_load_total_amended_witness :
    (load_or_create_log "2024-01-01" none = 0 ∧
     load_or_create_log "2024-01-01" (some rows0) = lookupCups "2024-01-01" rows0) ∧
    load_or_create_log "2024-01-01" (some [⟨none, some 4⟩]) = 0 := by
  have h1 := C6_load_total_amended "2024-01-01" rows0
  have h2 := C6_load_total_amended "2024-01-01" [⟨none, some 4⟩]
  exact ⟨⟨h1.1, h1.2.1 (by decide)⟩, h2.2.2 ⟨⟨none, some 4⟩, by decide, rfl⟩⟩

/-- C7 counterexample: `save_settings` writes only the interval, never
the cup label, so saving the valid Settings value `{45, "cup"}` over a
resource whose persisted label is `"mug"` and loading back returns the
label `"mug"`, not the saved value's `"cup"` — the round trip fails for
any `s` whose unit label differs from the persisted one. -/
theorem C7_counterexample :
    save_settings 45 (some (.parsed [("Settings", [("cup_name", "mug")])])) =
      .ok (some (.parsed [("Settings", [("cup_name", "mug"), ("interval_minutes", "45")])])) ∧
    load_settings
        (some (.parsed [("Settings", [("cup_name", "mug"), ("interval_minutes", "45")])])) =
      .ok (45, "mug",
        some (.parsed [("Settings", [("cup_name", "mug"), ("interval_minutes", "45")])])) ∧
    "mug" ≠ "cup" := ⟨rfl, rfl, by decide⟩

/-- C7 amended: for any interval `i ∈ [1,120]` and any parseable settings
resource with a `[Settings]` section, `save_settings i` then
`load_settings` returns exactly `i` together with the resource's
existing cup label (default `"cup"`) — so the full round trip holds
precisely when the saved value's unit label equals the persisted one —
and every key other than `interval_minutes`, in every section
(`cup_name`, `cup_amount_ml`, anything else), round-trips unchanged. -/
theorem C7_roundtrip_amended (i : Int) (hi1 : 1 ≤ i) (hi2 : i ≤ 120)
    (secs : List IniSection)
    (hsec : (secs.find? (fun s => s.1 = "Settings")).isSome = true) :
    save_settings i (some (.parsed secs)) =
      .ok (some (.parsed (setKey secs "Settings" "interval_minutes" (intToStr i)))) ∧
    load_settings (some (.parsed (setKey secs "Settings" "interval_minutes" (intToStr i)))) =
      .ok (i, cupOfSecs secs,
        some (.parsed (setKey secs "Settings" "interval_minutes" (intToStr i)))) ∧
    (∀ sec' k', k' ≠ "interval_minutes" →
      getKey (setKey secs "Settings" "interval_minutes" (intToStr i)) sec' k' =
        getKey secs sec' k') := by
  obtain ⟨s0, hs0⟩ := Option.isSome_iff_exists.mp hsec
  refine ⟨?_, ?_, ?_⟩
  · simp only [save_settings, hs0]
  · have hget := getKey_setKey_self secs "Settings" "interval_minutes" (intToStr i) hsec
    have hcup := getKey_setKey_other secs "Settings" "interval_minutes" (intToStr i)
      "Settings" "cup_name" (by decide)
    simp only [load_settings, hget, pyInt_intToStr_interval i hi1 hi2, cupOfSecs, hcup]
  · intro sec' k' hk
    exact getKey_setKey_other secs "Settings" "interval_minutes" (intToStr i) sec' k' hk

/-- Witness for the amended C7 over the default settings file: interval
45 round-trips, the cup label and the `cup_amount_ml` key are kept. -/
theorem C7_roundtrip_amended_witness :
    (save_settings 45 (some (.parsed defaultSettingsSections)) =
      .ok (some (.parsed
        (setKey defaultSettingsSections "Settings" "interval_minutes" (intToStr 45)))) ∧
     load_settings (some (.parsed
        (setKey defaultSettingsSections "Settings" "interval_minutes" (intToStr 45)))) =
      .ok (45, cupOfSecs defaultSettingsSections,
        some (.parsed
          (setKey defaultSettingsSections "Settings" "interval_minutes" (intToStr 45))))) ∧
    getKey (setKey defaultSettingsSections "Settings" "interval_minutes" (intToStr 45))
        "Settings" "cup_amount_ml" =
      getKey defaultSettingsSections "Settings" "cup_amount_ml" := by
  have h := C7_roundtrip_amended 45 (by decide) (by decide) defaultSettingsSections (by decide)
  exact ⟨⟨h.1, h.2.1⟩, h.2.2 "Settings" "cup_amount_ml" (by decide)⟩

/-- C8: `save_log` (the DailyLog upsert) is idempotent for a fixed
`(today, total)` pair: if one application succeeds and produces the
persisted state `f'`, applying it again to `f'` succeeds and leaves `f'`
exactly as it is. -/
theorem C8_upsert_idempotent (today : String) (total : Int)
    (file f' : Option (List RawRow)) (h : save_log today total file = .ok f') :
    save_log today total f' = .ok f' := by
  cases file with
  | none =>
      simp only [save_log] at h
      injection h with h
      subst h
      simp [save_log, upsertRows]
  | some rows =>
      simp only [save_log] at h
      by_cases hall : rows.all (fun r => r.date.isSome) = true
      · rw [if_pos hall] at h
        injection h with h
        subst h
        have hall2 := upsertRows_all_dates today total rows hall
        simp only [save_log, hall2, if_true, upsertRows_idem]
      · rw [if_neg hall] at h
        exact absurd h (by simp)

/-- Witness for C8 at a concrete log. -/
theorem C8_upsert_idempotent_witness :
    save_log "2024-01-01" 2 (some [⟨some "2024-01-01", some 2⟩]) =
      .ok (some [⟨some "2024-01-01", some 2⟩]) :=
  C8_upsert_idempotent "2024-01-01" 2 (some [⟨some "2024-01-01", some 1⟩])
    (some [⟨some "2024-01-01", some 2⟩]) rfl

/-- C9: the upsert inside `save_log` replaces the `Total Cups` of the
row(s) for `today` when one exists and otherwise appends a new row;
every row for another date is kept unchanged at its original position
(so the pre-existing order is preserved in the rewritten resource). -/
theorem C9_upsert_shape (today : String) (total : Int) (rows : List RawRow) :
    ((∃ r ∈ rows, r.date = some today) →
       (upsertRows today total rows).length = rows.length ∧
       ∀ (i : Nat) (r : RawRow), rows[i]? = some r →
         ((r.date = some today →
             (upsertRows today total rows)[i]? = some ⟨r.date, some total⟩) ∧
          (r.date ≠ some today → (upsertRows today total rows)[i]? = some r))) ∧
    ((∀ r ∈ rows, r.date ≠ some today) →
       upsertRows today total rows = rows ++ [⟨some today, some total⟩]) := by
  constructor
  · intro hex
    have hany : rows.any (fun r => r.date = some today) = true := by
      rw [List.any_eq_true]
      obtain ⟨r, hr, he⟩ := hex
      exact ⟨r, hr, by simp [he]⟩
    rw [upsertRows_of_any today total rows hany]
    refine ⟨List.length_map rows _, ?_⟩
    intro i r hi
    constructor
    · intro hd
      rw [List.getElem?_map, hi]
      simp [replaceRow, hd]
    · intro hd
      rw [List.getElem?_map, hi]
      simp [replaceRow, hd]
  · intro hall
    have hany : rows.any (fun r => r.date = some today) = false := by
      rw [List.any_eq_false]
      intro r hr
      simpa using hall r hr
    exact upsertRows_of_not_any today total rows hany

/-- Witness for C9: both branches of the statement exercised on concrete
rows — replacement in place at index 1, frame at index 0, and the append
branch on rows without the date. -/
theorem C9_upsert_shape_witness :
    ((upsertRows "2024-01-02" 7 rows0).length = rows0.length ∧
     (upsertRows "2024-01-02" 7 rows0)[1]? = some ⟨some "2024-01-02", some 7⟩ ∧
     (upsertRows "2024-01-02" 7 rows0)[0]? = some ⟨some "2024-01-01", some 1⟩) ∧
    upsertRows "2024-01-09" 7 rows0 = rows0 ++ [⟨some "2024-01-09", some 7⟩] := by
  constructor
  · have h := (C9_upsert_shape "2024-01-02" 7 rows0).1 (by decide)
    exact ⟨h.1,
      (h.2 1 ⟨some "2024-01-02", some 2⟩ rfl).1 rfl,
      (h.2 0 ⟨some "2024-01-01", some 1⟩ rfl).2 (by decide)⟩
  · exact (C9_upsert_shape "2024-01-09" 7 rows0).2 (by decide)

/-- C10: when the settings file is missing or lacks a `[Settings]`
section at the time `save_settings` runs, the subscript
`config["Settings"]` raises an unhandled `KeyError`. -/
theorem C10_save_settings_keyError (i : Int) (secs : List IniSection)
    (h : secs.find? (fun sec => sec.1 = "Settings") = none) :
    save_settings i none = .error .keyError ∧
    save_settings i (some (.parsed secs)) = .error .keyError := by
  refine ⟨rfl, ?_⟩
  simp only [save_settings, h]

/-- Witness for C10: a deleted file and a truncated file that kept only
an unrelated section both make `save_settings` raise `KeyError`. -/
theorem C10_save_settings_keyError_witness :
    save_settings 7 none = .error .keyError ∧
    save_settings 7 (some (.parsed [("Other", [("a", "b")])])) = .error .keyError :=
  C10_save_settings_keyError 7 [("Other", [("a", "b")])] rfl

end HydrationReminder
